import Mathlib

/-!
Verification development for the ESP32 direct-drive servo firmware.

The embedding models the firmware's three source files:
* `protocol.h` — wire constants, the CRC-8 routine and the `Packet` record;
* `config.h` — numeric configuration constants;
* the main translation unit — serial frame scanning (`processSerial`),
  command dispatch (`handlePacket`), packet encoding (`sendPacket`) and
  the control loop body (`loop`, modelled as `tick`).

Bytes are modelled as natural numbers; every place the C code truncates to a
machine width carries an explicit `% 2^w`.  The receive buffer is the list of
bytes `rx_buf[0..rx_pos)`; its write cursor is the list length.
-/

namespace ServoFw

/-- CRC-8 inner round from `protocol.h`: one shift of
`crc = (crc & 0x80) ? (crc << 1) ^ 0x07 : (crc << 1)` on a `uint8_t`. -/
def crc8round (c : Nat) : Nat :=
  if 128 ≤ c then ((c * 2) % 256) ^^^ 7 else (c * 2) % 256

/-- One byte of the CRC-8: `crc ^= data[i]` followed by eight rounds. -/
def crc8byte (c b : Nat) : Nat := crc8round^[8] ((c ^^^ b) % 256)

/-- `crc8` from `protocol.h`: polynomial 0x07, initial value 0, over a byte list. -/
def crc8 (data : List Nat) : Nat := data.foldl crc8byte 0

/-- Decoded packet handed to the dispatcher: command id, length byte, and the
payload bytes (`protocol.h`'s `Packet`). -/
structure Packet where
  cmd : Nat
  len : Nat
  payload : List Nat
  deriving Repr, DecidableEq

/-- `sendPacket` from the main translation unit, as the pure byte sequence it
writes to the transport: `[0xAA, 0x55, cmd, len, payload..., crc8(cmd,len,payload)]`. -/
def sendPacket (cmd : Nat) (payload : List Nat) : List Nat :=
  170 :: 85 :: cmd :: payload.length ::
    (payload ++ [crc8 (cmd :: payload.length :: payload)])

/-- A frame laid out like `sendPacket cmd payload` except that the trailing
checksum byte is `b` instead of the correct CRC (used to express
corrupted-checksum frames). -/
def badFrame (cmd : Nat) (payload : List Nat) (b : Nat) : List Nat :=
  170 :: 85 :: cmd :: payload.length :: (payload ++ [b])

/-- The frame-scan loop of `processSerial`, acting on the byte list
`rx_buf[search..rx_pos)`; advancing `search` is dropping from the front, and
the final compaction (`memmove`) makes the returned remainder the new buffer.
Mirrored decisions, in the C order:
* loop condition `search + 4 < rx_pos` is `4 < buf.length`;
* header test on bytes 0 and 1;
* `total = 5 + plen` on a `uint8_t`, hence `(5 + plen) % 256`;
* bounds test `search + total > rx_pos` is `buf.length < total`;
* CRC over `2 + plen` bytes — again a `uint8_t`, hence `(2 + plen) % 256` —
  starting at offset 2, compared with the byte at offset `4 + plen`;
* advance by `total` whether or not the checksum matched.
Out-of-range reads (possible when `plen ≥ 251` wraps `total`; in C they read
past `rx_pos` and past the array) are modelled by `getD`'s default 0, and the
case `total = 0` (`plen = 251`), where the C loop never advances `search` and
the firmware spins forever, is modelled as stopping the scan; `parseChecked`
below flags both situations instead of papering over them.
The fuel argument dominates the iteration count whenever every step consumes
at least one byte, which `processBuf` supplies. -/
def parseLoop : Nat → List Nat → List Packet × List Nat
  | 0, buf => ([], buf)
  | fuel + 1, buf =>
    if buf.length ≤ 4 then ([], buf)
    else if buf.getD 0 0 = 170 ∧ buf.getD 1 0 = 85 then
      let cmd := buf.getD 2 0
      let plen := buf.getD 3 0
      let total := (5 + plen) % 256
      if buf.length < total then ([], buf)
      else if total = 0 then ([], buf)
      else
        let crcIn := (List.range ((2 + plen) % 256)).map fun i => buf.getD (2 + i) 0
        let payload := (List.range plen).map fun i => buf.getD (4 + i) 0
        let r := parseLoop fuel (buf.drop total)
        if crc8 crcIn = buf.getD (4 + plen) 0 then
          (⟨cmd, plen, payload⟩ :: r.1, r.2)
        else r
    else parseLoop fuel (buf.drop 1)

/-- Run the frame-scan loop on a whole buffer: dispatched packets in order and
the compacted remainder. -/
def processBuf (buf : List Nat) : List Packet × List Nat :=
  parseLoop (buf.length + 1) buf

/-- The same scan with `Option`-returning indexing: every buffer read the C
code performs (header bytes, command, length, the CRC input bytes, the
trailing checksum byte, and the payload handed to the dispatcher) goes through
`l[i]?`, so a read at an index at or beyond the write cursor yields `none`.
The branch `total = 0`, where the C loop re-reads the same frame forever, also
yields `none`. -/
def parseChecked : Nat → List Nat → Option (List Packet × List Nat)
  | 0, buf => some ([], buf)
  | fuel + 1, buf =>
    if buf.length ≤ 4 then some ([], buf)
    else do
      let h0 ← buf[0]?
      let h1 ← buf[1]?
      if h0 = 170 ∧ h1 = 85 then do
        let cmd ← buf[2]?
        let plen ← buf[3]?
        let total := (5 + plen) % 256
        if buf.length < total then some ([], buf)
        else do
          let crcIn ← (List.range ((2 + plen) % 256)).mapM fun i => buf[2 + i]?
          let actual ← buf[4 + plen]?
          if total = 0 then none
          else if crc8 crcIn = actual then do
            let payload ← (List.range plen).mapM fun i => buf[4 + i]?
            let r ← parseChecked fuel (buf.drop total)
            some (⟨cmd, plen, payload⟩ :: r.1, r.2)
          else parseChecked fuel (buf.drop total)
      else parseChecked fuel (buf.drop 1)

/-- Checked scan over a whole buffer. -/
def processChecked (buf : List Nat) : Option (List Packet × List Nat) :=
  parseChecked (buf.length + 1) buf

/-- The byte-drain loop at the top of `processSerial`: each arriving byte is
appended at `rx_pos`, except that when `rx_pos` has reached the 64-byte
capacity the cursor is reset to 0 first (overflow protection), abandoning the
buffered bytes. -/
def drainSerial (buf chunk : List Nat) : List Nat :=
  chunk.foldl (fun b x => if 64 ≤ b.length then [x] else b ++ [x]) buf

/-- Repeated `processSerial` decode passes: per tick, drain that tick's chunk
into the buffer, then run the frame scan; dispatched packets accumulate in
order. -/
def runSerialTicks (buf : List Nat) : List (List Nat) → List Packet × List Nat
  | [] => ([], buf)
  | c :: cs =>
    let b := drainSerial buf c
    let pr := processBuf b
    let rest := runSerialTicks pr.2 cs
    (pr.1 ++ rest.1, rest.2)

/-- The actuator boundary's observable state: duty 0 (no pulses, servo
relaxed) or pulsing at a given width in microseconds. -/
inductive ServoOut
  | relaxed
  | pulse (us : Nat)
  deriving Repr, DecidableEq

/-- The firmware's process-wide state: the static variables of the main
translation unit plus the actuator boundary state. -/
structure Ctrl where
  servo_enabled : Bool
  commanded_pos : Int
  gain : Nat
  servo_angle_adc : Nat
  loop_rate_hz : Nat
  fault_code : Nat
  last_cmd_time : Nat
  last_telemetry_time : Nat
  last_heartbeat_time : Nat
  loop_count : Nat
  loop_rate_timer : Nat
  rx : List Nat
  servoOut : ServoOut
  deriving Repr, DecidableEq

/-- Cast of a `uint16` bit pattern to C's `int16_t`. -/
def toInt16 (n : Nat) : Int :=
  if n < 32768 then (n : Int) else (n : Int) - 65536

/-- Arduino's `map(x, in_min, in_max, out_min, out_max)` on `long`s:
`(x - in_min) * (out_max - out_min) / (in_max - in_min) + out_min` with C
division (truncation toward zero). -/
def arduinoMap (x inMin inMax outMin outMax : Int) : Int :=
  Int.tdiv ((x - inMin) * (outMax - outMin)) (inMax - inMin) + outMin

/-- `positionToUs`: scale the commanded position by `gain / 100` (C integer
division) and map `-32768..32767` onto `SERVO_MIN_US..SERVO_MAX_US`
(500..2500). -/
def positionToUs (gain : Nat) (pos : Int) : Int :=
  arduinoMap (Int.tdiv (pos * (gain : Int)) 100) (-32768) 32767 500 2500

/-- `constrain(us, SERVO_MIN_US, SERVO_MAX_US)` from `servoWriteUs`. -/
def constrainUs (us : Nat) : Nat :=
  if us < 500 then 500 else if 2500 < us then 2500 else us

/-- Cast of an `Int` to `uint32_t` (the cast in front of `map`'s result). -/
def toUInt32Nat (z : Int) : Nat := (z % 4294967296).toNat

/-- `uint32_t` subtraction `now - t`, as used for every timer comparison. -/
def elapsed32 (now t : Nat) : Nat := (now + 4294967296 - t) % 4294967296

/-- `handlePacket` from the main translation unit.  `last_cmd_time` is set
first, unconditionally; then the command switch.  The `millis()` call inside
it is identified with the tick timestamp `now`.  `servoDisable()` on a
disable command is the actuator boundary going to `relaxed`. -/
def handlePacket (s : Ctrl) (now : Nat) (cmd : Nat) (payload : List Nat)
    (len : Nat) : Ctrl :=
  let s1 := { s with last_cmd_time := now }
  if cmd = 1 then
    if 2 ≤ len then
      { s1 with
        commanded_pos := toInt16 ((payload.getD 0 0) ||| ((payload.getD 1 0) <<< 8)) }
    else s1
  else if cmd = 2 then
    if 1 ≤ len then { s1 with gain := min (payload.getD 0 0) 100 } else s1
  else if cmd = 3 then
    if 1 ≤ len then
      if payload.getD 0 0 ≠ 0 then { s1 with servo_enabled := true }
      else { s1 with servo_enabled := false, servoOut := ServoOut.relaxed }
    else s1
  else s1

/-- Dispatch a list of decoded packets in order. -/
def dispatchAll (s : Ctrl) (now : Nat) (pkts : List Packet) : Ctrl :=
  pkts.foldl (fun st p => handlePacket st now p.cmd p.payload p.len) s

/-- `processSerial`: drain the tick's incoming bytes, scan for frames, hand
every checksum-valid frame to `handlePacket`, keep the compacted remainder.
Returns the new state and the dispatched packets. -/
def processSerial (s : Ctrl) (now : Nat) (chunk : List Nat) :
    Ctrl × List Packet :=
  let buf := drainSerial s.rx chunk
  let pr := processBuf buf
  (dispatchAll { s with rx := pr.2 } now pr.1, pr.1)

/-- The telemetry packet `sendTelemetry` emits: angle then loop rate, both
little-endian 16-bit. -/
def mkTelemetry (s : Ctrl) : Packet :=
  ⟨16, 4, [s.servo_angle_adc % 256, s.servo_angle_adc / 256 % 256,
           s.loop_rate_hz % 256, s.loop_rate_hz / 256 % 256]⟩

/-- Result of one control-loop iteration: the new state, the inbound packets
dispatched, the outbound packets sent (in emission order), and the pulse
widths written to the actuator this tick (`servoWriteUs` calls). -/
structure TickRes where
  state : Ctrl
  dispatched : List Packet
  sent : List Packet
  pulseWrites : List Nat
  deriving Repr, DecidableEq

/-- The serial-timeout check in `loop()`: when enabled and more than
`SERIAL_TIMEOUT_MS = 1000` ms have passed since the last valid command,
disable the servo, relax the actuator, set
`fault_code = FAULT_SERIAL_TIMEOUT = 1` and send one Fault packet
(`sendFault` emits command `0x11` with the fault code as payload). -/
def timeoutStep (s : Ctrl) (now : Nat) : Ctrl × List Packet :=
  if s.servo_enabled = true ∧ 1000 < elapsed32 now s.last_cmd_time then
    ({ s with servo_enabled := false, servoOut := ServoOut.relaxed,
              fault_code := 1 },
     [⟨17, 1, [1]⟩])
  else (s, [])

/-- The drive section of `loop()`: only when enabled,
`servoWriteUs(positionToUs(commanded_pos))`; the second component records the
pulse widths written this tick. -/
def driveStep (s : Ctrl) : Ctrl × List Nat :=
  if s.servo_enabled = true then
    ({ s with servoOut :=
        (ServoOut.pulse
          (constrainUs (toUInt32Nat (positionToUs s.gain s.commanded_pos)))) },
     [constrainUs (toUInt32Nat (positionToUs s.gain s.commanded_pos))])
  else (s, [])

/-- Telemetry emission every `TELEMETRY_INTERVAL_MS = 20` ms. -/
def telemetryStep (s : Ctrl) (now : Nat) : Ctrl × List Packet :=
  if 20 ≤ elapsed32 now s.last_telemetry_time then
    ({ s with last_telemetry_time := now }, [mkTelemetry s])
  else (s, [])

/-- Heartbeat emission every `HEARTBEAT_INTERVAL_MS = 500` ms. -/
def heartbeatStep (s : Ctrl) (now : Nat) : Ctrl × List Packet :=
  if 500 ≤ elapsed32 now s.last_heartbeat_time then
    ({ s with last_heartbeat_time := now }, [⟨240, 0, []⟩])
  else (s, [])

/-- Loop-rate measurement: count iterations and latch the count into
`loop_rate_hz` (a `uint16_t`) once a second. -/
def loopRateStep (s : Ctrl) (now : Nat) : Ctrl :=
  if 1000 ≤ elapsed32 now s.loop_rate_timer then
    { s with loop_rate_hz := ((s.loop_count + 1) % 4294967296) % 65536,
             loop_count := 0, loop_rate_timer := now }
  else { s with loop_count := (s.loop_count + 1) % 4294967296 }

/-- The state of the serial-timeout check's input with the fresh ADC sample:
the control state right before the drive section of `loop()`. -/
def preDriveState (s : Ctrl) (now adc : Nat) (chunk : List Nat) : Ctrl :=
  { (timeoutStep (processSerial s now chunk).1 now).1 with
    servo_angle_adc := adc }

/-- End-of-iteration control state. -/
def tickState (s : Ctrl) (now adc : Nat) (chunk : List Nat) : Ctrl :=
  loopRateStep (heartbeatStep (telemetryStep
    (driveStep (preDriveState s now adc chunk)).1 now).1 now).1 now

/-- Outbound packets of one iteration, in emission order: fault (if the
timeout fired), then telemetry, then heartbeat. -/
def tickSent (s : Ctrl) (now adc : Nat) (chunk : List Nat) : List Packet :=
  (timeoutStep (processSerial s now chunk).1 now).2 ++
    ((telemetryStep (driveStep (preDriveState s now adc chunk)).1 now).2 ++
      (heartbeatStep (telemetryStep
        (driveStep (preDriveState s now adc chunk)).1 now).1 now).2)

/-- One iteration of `loop()`, with `now = millis()` at the top of the
iteration and `adc` the `analogRead` sample.  In source order: process
incoming serial; serial-timeout check; read angle feedback into
`servo_angle_adc`; drive the servo only when enabled; telemetry; heartbeat;
loop-rate bookkeeping.  The end-of-iteration pacing delay has no state
effect and is not modelled. -/
def tick (s : Ctrl) (now adc : Nat) (chunk : List Nat) : TickRes :=
  { state := tickState s now adc chunk,
    dispatched := (processSerial s now chunk).2,
    sent := tickSent s now adc chunk,
    pulseWrites := (driveStep (preDriveState s now adc chunk)).2 }

/-- The state `setup()` leaves behind at time `t0`: everything zeroed or
defaulted, `gain = DEFAULT_GAIN = 50`, servo disabled and relaxed,
`last_cmd_time` and `loop_rate_timer` stamped with `millis()`. -/
def initState (t0 : Nat) : Ctrl :=
  ⟨false, 0, 50, 0, 0, 0, t0, 0, 0, 0, t0, [], ServoOut.relaxed⟩

/-- States the firmware can actually be in: the post-`setup` state followed by
any number of loop iterations with arbitrary timestamps, samples and serial
input. -/
inductive Reachable : Ctrl → Prop
  | init (t0 : Nat) : Reachable (initState t0)
  | step {s : Ctrl} (now adc : Nat) (chunk : List Nat) :
      Reachable s → Reachable (tick s now adc chunk).state

/-! ## Basic facts about the frame scan -/

/-- Reading a run of `n` buffer bytes starting at offset `k` through `getD`
is taking a segment, as long as the run is in bounds. -/
theorem range_map_getD (l : List Nat) (d : Nat) :
    ∀ n k, k + n ≤ l.length →
      (List.range n).map (fun i => l.getD (k + i) d) = (l.drop k).take n := by
  intro n
  induction n with
  | zero => simp
  | succ m ih =>
    intro k h
    rw [List.range_succ, List.map_append, ih k (by omega), List.take_succ]
    have h1 : (l.drop k)[m]? = some (l.getD (k + m) d) := by
      rw [List.getElem?_drop, List.getD_eq_getElem?_getD,
        List.getElem?_eq_getElem (by omega)]
      rfl
    rw [h1]
    rfl

/-- Index shifting for `getD`. -/
theorem getD_add (l : List Nat) (k i d : Nat) :
    l.getD (k + i) d = (l.drop k).getD i d := by
  rw [List.getD_eq_getElem?_getD, List.getD_eq_getElem?_getD, List.getElem?_drop]

/-- One unfolding of the frame-scan loop, stated once so later proofs can
rewrite with it instead of relying on definitional unfolding. -/
theorem parseLoop_succ (fuel : Nat) (buf : List Nat) :
    parseLoop (fuel + 1) buf =
      if buf.length ≤ 4 then ([], buf)
      else if buf.getD 0 0 = 170 ∧ buf.getD 1 0 = 85 then
        if buf.length < (5 + buf.getD 3 0) % 256 then ([], buf)
        else if (5 + buf.getD 3 0) % 256 = 0 then ([], buf)
        else if crc8 ((List.range ((2 + buf.getD 3 0) % 256)).map
            fun i => buf.getD (2 + i) 0) = buf.getD (4 + buf.getD 3 0) 0 then
          (⟨buf.getD 2 0, buf.getD 3 0,
              (List.range (buf.getD 3 0)).map fun i => buf.getD (4 + i) 0⟩ ::
            (parseLoop fuel (buf.drop ((5 + buf.getD 3 0) % 256))).1,
           (parseLoop fuel (buf.drop ((5 + buf.getD 3 0) % 256))).2)
        else parseLoop fuel (buf.drop ((5 + buf.getD 3 0) % 256))
      else parseLoop fuel (buf.drop 1) := rfl

/-- The scan result does not depend on the fuel once the fuel exceeds the
buffer length: every iteration consumes at least one byte. -/
theorem parseLoop_fuel :
    ∀ n (buf : List Nat) m, buf.length < n → buf.length < m →
      parseLoop n buf = parseLoop m buf := by
  intro n
  induction n with
  | zero => intro buf m hn; omega
  | succ n ih =>
    intro buf m hn hm
    obtain ⟨m', rfl⟩ : ∃ m', m = m' + 1 := ⟨m - 1, by omega⟩
    rw [parseLoop_succ, parseLoop_succ]
    by_cases h4 : buf.length ≤ 4
    · rw [if_pos h4, if_pos h4]
    · rw [if_neg h4, if_neg h4]
      by_cases hh : buf.getD 0 0 = 170 ∧ buf.getD 1 0 = 85
      · rw [if_pos hh, if_pos hh]
        by_cases hlt : buf.length < (5 + buf.getD 3 0) % 256
        · rw [if_pos hlt, if_pos hlt]
        · rw [if_neg hlt, if_neg hlt]
          by_cases h0 : (5 + buf.getD 3 0) % 256 = 0
          · rw [if_pos h0, if_pos h0]
          · rw [if_neg h0, if_neg h0]
            have hrec : parseLoop n (buf.drop ((5 + buf.getD 3 0) % 256)) =
                parseLoop m' (buf.drop ((5 + buf.getD 3 0) % 256)) := by
              apply ih
              · rw [List.length_drop]; omega
              · rw [List.length_drop]; omega
            rw [hrec]
      · rw [if_neg hh, if_neg hh]
        apply ih
        · rw [List.length_drop]; omega
        · rw [List.length_drop]; omega

/-- A buffer of at most 4 bytes is left alone: no complete frame can exist. -/
theorem processBuf_small (buf : List Nat) (h : buf.length ≤ 4) :
    processBuf buf = ([], buf) := by
  unfold processBuf
  rw [parseLoop_succ, if_pos h]

/-- Byte-at-a-time resynchronization: when the first two bytes are not the
header signature, the scan advances one position. -/
theorem processBuf_skip (buf : List Nat) (h4 : 4 < buf.length)
    (hhd : ¬(buf.getD 0 0 = 170 ∧ buf.getD 1 0 = 85)) :
    processBuf buf = processBuf (buf.drop 1) := by
  unfold processBuf
  rw [parseLoop_succ, if_neg (by omega : ¬ buf.length ≤ 4), if_neg hhd]
  exact parseLoop_fuel _ _ _ (by rw [List.length_drop]; omega)
    (by rw [List.length_drop]; omega)

/-- Consuming a complete frame at the head of the buffer: the frame is
dispatched exactly when its trailing checksum byte equals the CRC over
command, length and payload, and the scan continues past it either way. -/
theorem processBuf_frame (c : Nat) (p : List Nat) (b : Nat) (rest : List Nat)
    (hp : p.length ≤ 16) :
    processBuf (badFrame c p b ++ rest) =
      if crc8 (c :: p.length :: p) = b then
        (⟨c, p.length, p⟩ :: (processBuf rest).1, (processBuf rest).2)
      else processBuf rest := by
  have hw : badFrame c p b ++ rest =
      170 :: 85 :: c :: p.length :: (p ++ b :: rest) := by
    simp [badFrame]
  rw [hw]
  set w := 170 :: 85 :: c :: p.length :: (p ++ b :: rest) with hwdef
  have hlen : w.length = 5 + p.length + rest.length := by
    simp [hwdef]; omega
  have htot : (5 + p.length) % 256 = 5 + p.length := Nat.mod_eq_of_lt (by omega)
  have hcrclen : (2 + p.length) % 256 = 2 + p.length :=
    Nat.mod_eq_of_lt (by omega)
  have hg3 : w.getD 3 0 = p.length := rfl
  have htk : ∀ X : List Nat, (p ++ X).take p.length = p := by
    intro X
    rw [List.take_append_eq_append_take, List.take_length, Nat.sub_self,
      List.take_zero, List.append_nil]
  have hcin : (List.range ((2 + p.length) % 256)).map
      (fun i => w.getD (2 + i) 0) = c :: p.length :: p := by
    rw [hcrclen, range_map_getD _ _ _ _ (by omega)]
    show (c :: p.length :: (p ++ b :: rest)).take (2 + p.length) = _
    rw [show 2 + p.length = p.length + 1 + 1 by omega,
      List.take_succ_cons, List.take_succ_cons, htk]
  have hpay : (List.range p.length).map (fun i => w.getD (4 + i) 0) = p := by
    rw [range_map_getD _ _ _ _ (by omega)]
    show (p ++ b :: rest).take p.length = _
    exact htk _
  have hact : w.getD (4 + p.length) 0 = b := by
    rw [getD_add]
    show (p ++ b :: rest).getD p.length 0 = b
    rw [List.getD_append_right _ _ _ _ (le_refl _), Nat.sub_self,
      List.getD_cons_zero]
  have hdrop : w.drop (5 + p.length) = rest := by
    rw [show (5 : Nat) + p.length = 4 + (p.length + 1) by omega,
      ← List.drop_drop]
    show (p ++ b :: rest).drop (p.length + 1) = rest
    rw [List.drop_append_eq_append_drop,
      List.drop_eq_nil_of_le (by omega : p.length ≤ p.length + 1),
      Nat.add_sub_cancel_left, List.nil_append]
    rfl
  unfold processBuf
  rw [parseLoop_succ, if_neg (by omega : ¬ w.length ≤ 4),
    if_pos (⟨rfl, rfl⟩ : w.getD 0 0 = 170 ∧ w.getD 1 0 = 85), hg3, htot,
    if_neg (by omega : ¬ w.length < 5 + p.length),
    if_neg (by omega : ¬ 5 + p.length = 0), hcin, hpay, hact, hdrop,
    parseLoop_fuel w.length rest (rest.length + 1) (by omega) (by omega)]
  rfl

/-- `sendPacket` frames are checksum-valid by construction, so a complete one
at the head of the buffer is always dispatched. -/
theorem processBuf_sendPacket (c : Nat) (p : List Nat) (rest : List Nat)
    (hp : p.length ≤ 16) :
    processBuf (sendPacket c p ++ rest) =
      (⟨c, p.length, p⟩ :: (processBuf rest).1, (processBuf rest).2) := by
  have he : sendPacket c p = badFrame c p (crc8 (c :: p.length :: p)) := rfl
  rw [he, processBuf_frame c p _ rest hp, if_pos rfl]

/-- A frame whose trailing checksum byte does not match is silently skipped. -/
theorem processBuf_badFrame (c : Nat) (p : List Nat) (b : Nat)
    (rest : List Nat) (hp : p.length ≤ 16)
    (hb : b ≠ crc8 (c :: p.length :: p)) :
    processBuf (badFrame c p b ++ rest) = processBuf rest := by
  rw [processBuf_frame c p b rest hp, if_neg (fun h => hb h.symm)]

/-- An incomplete frame at the head of the buffer: header found but fewer than
`5 + length` bytes present, so the scan stops and waits for more data. -/
theorem processBuf_wait (c n : Nat) (t : List Nat) (hn : n ≤ 16)
    (ht : t.length ≤ n) :
    processBuf (170 :: 85 :: c :: n :: t) = ([], 170 :: 85 :: c :: n :: t) := by
  by_cases h4 : (170 :: 85 :: c :: n :: t).length ≤ 4
  · exact processBuf_small _ h4
  · have htot : (5 + n) % 256 = 5 + n := Nat.mod_eq_of_lt (by omega)
    have hlen : (170 :: 85 :: c :: n :: t).length = 4 + t.length := by
      simp; omega
    have hg3 : (170 :: 85 :: c :: n :: t).getD 3 0 = n := rfl
    unfold processBuf
    rw [parseLoop_succ, if_neg h4,
      if_pos (⟨rfl, rfl⟩ :
        (170 :: 85 :: c :: n :: t).getD 0 0 = 170 ∧
        (170 :: 85 :: c :: n :: t).getD 1 0 = 85), hg3, htot,
      if_pos (by omega : (170 :: 85 :: c :: n :: t).length < 5 + n)]

/-- When the incoming bytes fit the remaining buffer capacity, draining is
plain appending (the overflow reset never fires). -/
theorem drainSerial_append :
    ∀ (chunk buf : List Nat), buf.length + chunk.length ≤ 64 →
      drainSerial buf chunk = buf ++ chunk := by
  intro chunk
  induction chunk with
  | nil => intro buf h; simp [drainSerial]
  | cons x xs ih =>
    intro buf h
    have : ¬ 64 ≤ buf.length := by simp at h ⊢; omega
    simp only [drainSerial, List.foldl_cons, if_neg this]
    have := ih (buf ++ [x]) (by simp at h ⊢; omega)
    simp only [drainSerial] at this
    rw [this, List.append_assoc]
    rfl

/-! ## Windows of a byte stream

For the resynchronization analysis the buffer contents reachable while a
fixed stream is fed chunk by chunk are windows `S[a..b)` of that stream;
`seg` extracts such a window. -/

/-- The window `S[a..b)` of a byte stream. -/
def seg (S : List Nat) (a b : Nat) : List Nat := (S.take b).drop a

theorem seg_eq_take_drop (S : List Nat) (a b : Nat) :
    seg S a b = (S.drop a).take (b - a) := by
  rw [seg, List.drop_take]

theorem seg_self (S : List Nat) (a : Nat) : seg S a a = [] := by
  rw [seg_eq_take_drop, Nat.sub_self, List.take_zero]

theorem length_seg (S : List Nat) (a b : Nat) (hab : a ≤ b)
    (hb : b ≤ S.length) : (seg S a b).length = b - a := by
  rw [seg, List.length_drop, List.length_take]
  omega

theorem seg_drop (S : List Nat) (a b k : Nat) :
    (seg S a b).drop k = seg S (a + k) b := by
  rw [seg, seg, List.drop_drop]

theorem getD_seg (S : List Nat) (a b i d : Nat) (h : a + i < b) :
    (seg S a b).getD i d = S.getD (a + i) d := by
  rw [seg, List.getD_eq_getElem?_getD, List.getD_eq_getElem?_getD,
    List.getElem?_drop, List.getElem?_take, if_pos h]

theorem seg_append_seg (S : List Nat) (a b c : Nat) (hab : a ≤ b)
    (hbc : b ≤ c) (hc : c ≤ S.length) :
    seg S a b ++ seg S b c = seg S a c := by
  have h1 : (S.take b).length = min b S.length := List.length_take b S
  have h2 : S.take c = S.take b ++ (S.take c).drop b := by
    conv_lhs => rw [← List.take_append_drop b (S.take c)]
    rw [List.take_take, Nat.min_eq_left hbc]
  calc seg S a b ++ seg S b c
      = (S.take b).drop a ++ (S.take c).drop b := rfl
    _ = (S.take b ++ (S.take c).drop b).drop a := by
        rw [List.drop_append_eq_append_drop,
          Nat.sub_eq_zero_of_le (by omega : a ≤ (S.take b).length),
          List.drop_zero]
    _ = (S.take c).drop a := by rw [← h2]
    _ = seg S a c := rfl

/-! ## The resynchronization scenario

The stream is garbage followed by three frames (each frame-shaped with an
arbitrary trailing checksum byte; `sendPacket` frames are the special case of
a correct checksum).  `stopPos` is where the scan cursor provably rests after
the first `b` bytes of the stream have been fed and scanned, and
`pktsBetween` which packets a scan pass over the window `[a, b)` emits. -/

/-- Packets one complete frame contributes when scanned: dispatched exactly
when its trailing byte is the correct CRC. -/
def frameOut (c : Nat) (p : List Nat) (w : Nat) : List Packet :=
  if crc8 (c :: p.length :: p) = w then [⟨c, p.length, p⟩] else []

/-- Scan rest position after `b` stream bytes have been seen, for a stream of
`m1` garbage bytes followed by frames of sizes `T1`, `T2`, `T3`: inside the
garbage the scan keeps the last 4 bytes (it cannot yet rule out a header
starting there); at a frame start it waits until the frame is complete. -/
def stopPos (m1 T1 T2 T3 b : Nat) : Nat :=
  if b < m1 + 4 then b - 4
  else if b < m1 + T1 then m1
  else if b < m1 + T1 + T2 then m1 + T1
  else if b < m1 + T1 + T2 + T3 then m1 + T1 + T2
  else m1 + T1 + T2 + T3

/-- Packets emitted while the scan moves across the window `[a, b)`: each
frame contributes its output exactly when it lies entirely inside the
window. -/
def pktsBetween (m1 T1 T2 T3 : Nat) (D1 D2 D3 : List Packet) (a b : Nat) :
    List Packet :=
  (if a ≤ m1 ∧ m1 + T1 ≤ b then D1 else []) ++
  (if a ≤ m1 + T1 ∧ m1 + T1 + T2 ≤ b then D2 else []) ++
  (if a ≤ m1 + T1 + T2 ∧ m1 + T1 + T2 + T3 ≤ b then D3 else [])

theorem stopPos_le (m1 T1 T2 T3 b : Nat) : stopPos m1 T1 T2 T3 b ≤ b := by
  unfold stopPos
  split_ifs <;> omega

/-- Taking at least the four header bytes of a frame keeps its cons shape. -/
theorem take_badFrame (c : Nat) (p : List Nat) (w t : Nat) (h : 4 ≤ t) :
    (badFrame c p w).take t =
      170 :: 85 :: c :: p.length :: ((p ++ [w]).take (t - 4)) := by
  obtain ⟨u, rfl⟩ : ∃ u, t = u + 4 := ⟨t - 4, by omega⟩
  show (badFrame c p w).take (u + 4) = _
  rw [show u + 4 = (u + 3) + 1 by omega, badFrame, List.take_succ_cons,
    show u + 3 = (u + 2) + 1 by omega, List.take_succ_cons,
    show u + 2 = (u + 1) + 1 by omega, List.take_succ_cons,
    List.take_succ_cons, show u + 1 + 1 + 1 + 1 - 4 = u by omega]

theorem length_badFrame (c : Nat) (p : List Nat) (w : Nat) :
    (badFrame c p w).length = 5 + p.length := by
  simp [badFrame]; omega

/-- `pktsBetween` only depends on the left cursor through its position
relative to the frame starts. -/
theorem pktsBetween_shift (m1 T1 T2 T3 : Nat) (D1 D2 D3 : List Packet)
    (a a' b : Nat)
    (e1 : a ≤ m1 ↔ a' ≤ m1) (e2 : a ≤ m1 + T1 ↔ a' ≤ m1 + T1)
    (e3 : a ≤ m1 + T1 + T2 ↔ a' ≤ m1 + T1 + T2) :
    pktsBetween m1 T1 T2 T3 D1 D2 D3 a b =
    pktsBetween m1 T1 T2 T3 D1 D2 D3 a' b := by
  unfold pktsBetween
  rw [if_congr (and_congr_left fun _ => e1) rfl rfl,
    if_congr (and_congr_left fun _ => e2) rfl rfl,
    if_congr (and_congr_left fun _ => e3) rfl rfl]

set_option maxHeartbeats 1000000 in
/-- Main scan characterization for the garbage–frame–frame–frame stream: for
any window `[a, b)` whose left end is a position the scan can rest at, one
scan pass emits exactly the outputs of the frames lying wholly inside the
window, and rests at `stopPos` of the right end. -/
theorem resync_window (g p1 p2 p3 : List Nat) (c1 c2 c3 w1 w2 w3 : Nat)
    (h1 : p1.length ≤ 16) (h2 : p2.length ≤ 16) (h3 : p3.length ≤ 16)
    (hg : ∀ i, ¬(g.getD i 0 = 170 ∧ g.getD (i + 1) 0 = 85)) :
    ∀ k a b,
      b - a ≤ k →
      b ≤ g.length + (5 + p1.length) + (5 + p2.length) + (5 + p3.length) →
      a ≤ stopPos g.length (5 + p1.length) (5 + p2.length) (5 + p3.length) b →
      (a ≤ g.length ∨ a = g.length + (5 + p1.length) ∨
        a = g.length + (5 + p1.length) + (5 + p2.length) ∨
        a = g.length + (5 + p1.length) + (5 + p2.length) + (5 + p3.length)) →
      processBuf (seg (g ++ (badFrame c1 p1 w1 ++
          (badFrame c2 p2 w2 ++ badFrame c3 p3 w3))) a b) =
        (pktsBetween g.length (5 + p1.length) (5 + p2.length) (5 + p3.length)
            (frameOut c1 p1 w1) (frameOut c2 p2 w2) (frameOut c3 p3 w3) a b,
          seg (g ++ (badFrame c1 p1 w1 ++
              (badFrame c2 p2 w2 ++ badFrame c3 p3 w3)))
            (stopPos g.length (5 + p1.length) (5 + p2.length) (5 + p3.length) b)
            b) := by
  set S := g ++ (badFrame c1 p1 w1 ++ (badFrame c2 p2 w2 ++ badFrame c3 p3 w3))
    with hS
  have hSlen : S.length =
      g.length + (5 + p1.length) + (5 + p2.length) + (5 + p3.length) := by
    rw [hS]; simp only [List.length_append, length_badFrame]; omega
  have hdropg : S.drop g.length =
      badFrame c1 p1 w1 ++ (badFrame c2 p2 w2 ++ badFrame c3 p3 w3) := by
    rw [hS]; exact List.drop_left g _
  have hdrop2 : S.drop (g.length + (5 + p1.length)) =
      badFrame c2 p2 w2 ++ badFrame c3 p3 w3 := by
    rw [hS, ← List.append_assoc,
      show g.length + (5 + p1.length) = (g ++ badFrame c1 p1 w1).length by
        rw [List.length_append, length_badFrame],
      List.drop_left]
  have hdrop3 : S.drop (g.length + (5 + p1.length) + (5 + p2.length)) =
      badFrame c3 p3 w3 := by
    rw [hS, ← List.append_assoc, ← List.append_assoc,
      show g.length + (5 + p1.length) + (5 + p2.length) =
          ((g ++ badFrame c1 p1 w1) ++ badFrame c2 p2 w2).length by
        simp only [List.length_append, length_badFrame],
      List.drop_left]
  have hwin1 : ∀ x, x ≤ g.length + (5 + p1.length) →
      seg S g.length x = (badFrame c1 p1 w1).take (x - g.length) := by
    intro x hx
    rw [seg_eq_take_drop, hdropg, List.take_append_eq_append_take,
      length_badFrame, show x - g.length - (5 + p1.length) = 0 by omega,
      List.take_zero, List.append_nil]
  have hwin2 : ∀ x, x ≤ g.length + (5 + p1.length) + (5 + p2.length) →
      seg S (g.length + (5 + p1.length)) x =
        (badFrame c2 p2 w2).take (x - (g.length + (5 + p1.length))) := by
    intro x hx
    rw [seg_eq_take_drop, hdrop2, List.take_append_eq_append_take,
      length_badFrame,
      show x - (g.length + (5 + p1.length)) - (5 + p2.length) = 0 by omega,
      List.take_zero, List.append_nil]
  have hwin3 : ∀ x,
      seg S (g.length + (5 + p1.length) + (5 + p2.length)) x =
        (badFrame c3 p3 w3).take
          (x - (g.length + (5 + p1.length) + (5 + p2.length))) := by
    intro x
    rw [seg_eq_take_drop, hdrop3]
  have hfull1 : ∀ x, g.length + (5 + p1.length) ≤ x → x ≤ S.length →
      seg S g.length x =
        badFrame c1 p1 w1 ++ seg S (g.length + (5 + p1.length)) x := by
    intro x hlo hhi
    rw [← seg_append_seg S g.length (g.length + (5 + p1.length)) x
      (by omega) hlo hhi]
    congr 1
    rw [hwin1 _ (le_refl _),
      show g.length + (5 + p1.length) - g.length = 5 + p1.length by omega,
      ← length_badFrame c1 p1 w1, List.take_length]
  have hfull2 : ∀ x, g.length + (5 + p1.length) + (5 + p2.length) ≤ x →
      x ≤ S.length →
      seg S (g.length + (5 + p1.length)) x =
        badFrame c2 p2 w2 ++
          seg S (g.length + (5 + p1.length) + (5 + p2.length)) x := by
    intro x hlo hhi
    rw [← seg_append_seg S (g.length + (5 + p1.length))
      (g.length + (5 + p1.length) + (5 + p2.length)) x (by omega) hlo hhi]
    congr 1
    rw [hwin2 _ (by omega),
      show g.length + (5 + p1.length) + (5 + p2.length) -
        (g.length + (5 + p1.length)) = 5 + p2.length by omega,
      ← length_badFrame c2 p2 w2, List.take_length]
  have hfull3 : ∀ x,
      g.length + (5 + p1.length) + (5 + p2.length) + (5 + p3.length) ≤ x →
      x ≤ S.length →
      seg S (g.length + (5 + p1.length) + (5 + p2.length)) x =
        badFrame c3 p3 w3 ++
          seg S (g.length + (5 + p1.length) + (5 + p2.length) +
            (5 + p3.length)) x := by
    intro x hlo hhi
    rw [← seg_append_seg S (g.length + (5 + p1.length) + (5 + p2.length))
      (g.length + (5 + p1.length) + (5 + p2.length) + (5 + p3.length)) x
      (by omega) hlo hhi]
    congr 1
    rw [hwin3,
      show g.length + (5 + p1.length) + (5 + p2.length) + (5 + p3.length) -
        (g.length + (5 + p1.length) + (5 + p2.length)) = 5 + p3.length by
          omega,
      ← length_badFrame c3 p3 w3, List.take_length]
  have hgetg : ∀ i, i < g.length → S.getD i 0 = g.getD i 0 := by
    intro i hi; rw [hS]; exact List.getD_append _ _ _ _ hi
  have hgetm1 : S.getD g.length 0 = 170 := by
    rw [hS, List.getD_append_right _ _ _ _ (le_refl _), Nat.sub_self]
    rfl
  intro k
  induction k with
  | zero =>
    intro a b hk hb ha horig
    have hstople := stopPos_le g.length (5 + p1.length) (5 + p2.length)
      (5 + p3.length) b
    have hstop : stopPos g.length (5 + p1.length) (5 + p2.length)
        (5 + p3.length) b = b := by omega
    rw [show a = b by omega, hstop, seg_self, processBuf_small [] (by simp)]
    unfold pktsBetween
    rw [if_neg (by omega), if_neg (by omega), if_neg (by omega)]
    rfl
  | succ k ih =>
    intro a b hk hb ha horig
    have hstople := stopPos_le g.length (5 + p1.length) (5 + p2.length)
      (5 + p3.length) b
    have hblen : b ≤ S.length := by rw [hSlen]; exact hb
    rcases horig with hgar | ha2 | ha3 | ha4
    · -- left end in the garbage (or at the first frame start)
      by_cases hsmall : b ≤ a + 4
      · have hstop : stopPos g.length (5 + p1.length) (5 + p2.length)
            (5 + p3.length) b = a := by
          unfold stopPos at ha ⊢
          split_ifs at ha ⊢ <;> omega
        rw [processBuf_small _
          (by rw [length_seg _ _ _ (by omega) hblen]; omega), hstop]
        unfold pktsBetween
        rw [if_neg (by omega), if_neg (by omega), if_neg (by omega)]
        rfl
      · by_cases hlt : a < g.length
        · -- skip one garbage byte
          have hl4 : 4 < (seg S a b).length := by
            rw [length_seg _ _ _ (by omega) hblen]; omega
          have hhd : ¬((seg S a b).getD 0 0 = 170 ∧
              (seg S a b).getD 1 0 = 85) := by
            have e0 : (seg S a b).getD 0 0 = S.getD a 0 := by
              have := getD_seg S a b 0 0 (by omega)
              simpa using this
            have e1 : (seg S a b).getD 1 0 = S.getD (a + 1) 0 :=
              getD_seg S a b 1 0 (by omega)
            rw [e0, e1]
            by_cases hsucc : a + 1 < g.length
            · rw [hgetg a (by omega), hgetg (a + 1) hsucc]
              exact hg a
            · have he : a + 1 = g.length := by omega
              rintro ⟨hx, hy⟩
              rw [he, hgetm1] at hy
              exact absurd hy (by omega)
          have hrec := ih (a + 1) b (by omega) hb
            (by unfold stopPos; split_ifs <;> omega) (Or.inl (by omega))
          rw [processBuf_skip _ hl4 hhd, seg_drop, hrec,
            pktsBetween_shift g.length (5 + p1.length) (5 + p2.length)
              (5 + p3.length) _ _ _ (a + 1) a b (by omega) (by omega)
              (by omega)]
        · -- at the start of the first frame
          have hae : a = g.length := by omega
          subst hae
          by_cases hcomp : g.length + (5 + p1.length) ≤ b
          · -- first frame complete: consume it
            have hrec := ih (g.length + (5 + p1.length)) b (by omega) hb
              (by unfold stopPos; split_ifs <;> omega)
              (Or.inr (Or.inl rfl))
            rw [hfull1 b hcomp hblen, processBuf_frame c1 p1 w1 _ h1, hrec]
            have hsplit : pktsBetween g.length (5 + p1.length)
                (5 + p2.length) (5 + p3.length) (frameOut c1 p1 w1)
                (frameOut c2 p2 w2) (frameOut c3 p3 w3) g.length b =
                frameOut c1 p1 w1 ++
                  pktsBetween g.length (5 + p1.length) (5 + p2.length)
                    (5 + p3.length) (frameOut c1 p1 w1) (frameOut c2 p2 w2)
                    (frameOut c3 p3 w3) (g.length + (5 + p1.length)) b := by
              unfold pktsBetween
              split_ifs <;>
                first
                  | (exfalso; omega)
                  | simp only [List.nil_append, List.append_nil,
                  List.append_assoc]
            rw [hsplit]
            by_cases hcrc : crc8 (c1 :: p1.length :: p1) = w1
            · rw [if_pos hcrc]
              unfold frameOut
              rw [if_pos hcrc]
              rfl
            · rw [if_neg hcrc]
              unfold frameOut
              rw [if_neg hcrc, List.nil_append]
          · -- first frame incomplete: wait
            have hstop : stopPos g.length (5 + p1.length) (5 + p2.length)
                (5 + p3.length) b = g.length := by
              unfold stopPos at ha ⊢
              split_ifs at ha ⊢ <;> omega
            have hpkts : pktsBetween g.length (5 + p1.length) (5 + p2.length)
                (5 + p3.length) (frameOut c1 p1 w1) (frameOut c2 p2 w2)
                (frameOut c3 p3 w3) g.length b = [] := by
              unfold pktsBetween
              rw [if_neg (by omega), if_neg (by omega), if_neg (by omega)]
              rfl
            rw [hstop, hpkts, hwin1 b (by omega)]
            by_cases hb4 : 4 ≤ b - g.length
            · rw [take_badFrame c1 p1 w1 _ hb4]
              exact processBuf_wait c1 p1.length _ h1
                (by simp only [List.length_take, List.length_append,
                  List.length_cons, List.length_nil]; omega)
            · exact processBuf_small _
                (by simp only [List.length_take, length_badFrame]; omega)
    · -- at the start of the second frame
      subst ha2
      by_cases hcomp : g.length + (5 + p1.length) + (5 + p2.length) ≤ b
      · have hrec := ih (g.length + (5 + p1.length) + (5 + p2.length)) b
          (by omega) hb (by unfold stopPos; split_ifs <;> omega)
          (Or.inr (Or.inr (Or.inl rfl)))
        rw [hfull2 b hcomp hblen, processBuf_frame c2 p2 w2 _ h2, hrec]
        have hsplit : pktsBetween g.length (5 + p1.length) (5 + p2.length)
            (5 + p3.length) (frameOut c1 p1 w1) (frameOut c2 p2 w2)
            (frameOut c3 p3 w3) (g.length + (5 + p1.length)) b =
            frameOut c2 p2 w2 ++
              pktsBetween g.length (5 + p1.length) (5 + p2.length)
                (5 + p3.length) (frameOut c1 p1 w1) (frameOut c2 p2 w2)
                (frameOut c3 p3 w3)
                (g.length + (5 + p1.length) + (5 + p2.length)) b := by
          unfold pktsBetween
          split_ifs <;>
            first
              | (exfalso; omega)
              | simp only [List.nil_append, List.append_nil,
                  List.append_assoc]
        rw [hsplit]
        by_cases hcrc : crc8 (c2 :: p2.length :: p2) = w2
        · rw [if_pos hcrc]
          unfold frameOut
          rw [if_pos hcrc]
          rfl
        · rw [if_neg hcrc]
          unfold frameOut
          rw [if_neg hcrc, List.nil_append]
      · have hstop : stopPos g.length (5 + p1.length) (5 + p2.length)
            (5 + p3.length) b = g.length + (5 + p1.length) := by
          unfold stopPos at ha ⊢
          split_ifs at ha ⊢ <;> omega
        have hpkts : pktsBetween g.length (5 + p1.length) (5 + p2.length)
            (5 + p3.length) (frameOut c1 p1 w1) (frameOut c2 p2 w2)
            (frameOut c3 p3 w3) (g.length + (5 + p1.length)) b = [] := by
          unfold pktsBetween
          rw [if_neg (by omega), if_neg (by omega), if_neg (by omega)]
          rfl
        rw [hstop, hpkts, hwin2 b (by omega)]
        by_cases hb4 : 4 ≤ b - (g.length + (5 + p1.length))
        · rw [take_badFrame c2 p2 w2 _ hb4]
          exact processBuf_wait c2 p2.length _ h2
            (by simp only [List.length_take, List.length_append,
              List.length_cons, List.length_nil]; omega)
        · exact processBuf_small _
                (by simp only [List.length_take, length_badFrame]; omega)
    · -- at the start of the third frame
      subst ha3
      by_cases hcomp :
          g.length + (5 + p1.length) + (5 + p2.length) + (5 + p3.length) ≤ b
      · have hrec := ih
          (g.length + (5 + p1.length) + (5 + p2.length) + (5 + p3.length)) b
          (by omega) hb (by unfold stopPos; split_ifs <;> omega)
          (Or.inr (Or.inr (Or.inr rfl)))
        rw [hfull3 b hcomp hblen, processBuf_frame c3 p3 w3 _ h3, hrec]
        have hsplit : pktsBetween g.length (5 + p1.length) (5 + p2.length)
            (5 + p3.length) (frameOut c1 p1 w1) (frameOut c2 p2 w2)
            (frameOut c3 p3 w3)
            (g.length + (5 + p1.length) + (5 + p2.length)) b =
            frameOut c3 p3 w3 ++
              pktsBetween g.length (5 + p1.length) (5 + p2.length)
                (5 + p3.length) (frameOut c1 p1 w1) (frameOut c2 p2 w2)
                (frameOut c3 p3 w3)
                (g.length + (5 + p1.length) + (5 + p2.length) +
                  (5 + p3.length)) b := by
          unfold pktsBetween
          split_ifs <;>
            first
              | (exfalso; omega)
              | simp only [List.nil_append, List.append_nil,
                  List.append_assoc]
        rw [hsplit]
        by_cases hcrc : crc8 (c3 :: p3.length :: p3) = w3
        · rw [if_pos hcrc]
          unfold frameOut
          rw [if_pos hcrc]
          rfl
        · rw [if_neg hcrc]
          unfold frameOut
          rw [if_neg hcrc, List.nil_append]
      · have hstop : stopPos g.length (5 + p1.length) (5 + p2.length)
            (5 + p3.length) b =
            g.length + (5 + p1.length) + (5 + p2.length) := by
          unfold stopPos at ha ⊢
          split_ifs at ha ⊢ <;> omega
        have hpkts : pktsBetween g.length (5 + p1.length) (5 + p2.length)
            (5 + p3.length) (frameOut c1 p1 w1) (frameOut c2 p2 w2)
            (frameOut c3 p3 w3)
            (g.length + (5 + p1.length) + (5 + p2.length)) b = [] := by
          unfold pktsBetween
          rw [if_neg (by omega), if_neg (by omega), if_neg (by omega)]
          rfl
        rw [hstop, hpkts, hwin3 b]
        by_cases hb4 :
            4 ≤ b - (g.length + (5 + p1.length) + (5 + p2.length))
        · rw [take_badFrame c3 p3 w3 _ hb4]
          exact processBuf_wait c3 p3.length _ h3
            (by simp only [List.length_take, List.length_append,
              List.length_cons, List.length_nil]; omega)
        · exact processBuf_small _
                (by simp only [List.length_take, length_badFrame]; omega)
    · -- past the last frame: the stream is exhausted
      subst ha4
      have hbe : b =
          g.length + (5 + p1.length) + (5 + p2.length) + (5 + p3.length) := by
        omega
      subst hbe
      have hstop : stopPos g.length (5 + p1.length) (5 + p2.length)
          (5 + p3.length)
          (g.length + (5 + p1.length) + (5 + p2.length) + (5 + p3.length)) =
          g.length + (5 + p1.length) + (5 + p2.length) + (5 + p3.length) := by
        unfold stopPos
        split_ifs <;> omega
      rw [seg_self, processBuf_small _ (by simp), hstop, seg_self]
      unfold pktsBetween
      rw [if_neg (by omega), if_neg (by omega), if_neg (by omega)]
      rfl

theorem runSerialTicks_nil (buf : List Nat) :
    runSerialTicks buf [] = ([], buf) := rfl

theorem runSerialTicks_cons (buf c : List Nat) (cs : List (List Nat)) :
    runSerialTicks buf (c :: cs) =
      ((processBuf (drainSerial buf c)).1 ++
          (runSerialTicks (processBuf (drainSerial buf c)).2 cs).1,
        (runSerialTicks (processBuf (drainSerial buf c)).2 cs).2) := rfl

theorem stopPos_mono (m1 T1 T2 T3 b b' : Nat) (h : b ≤ b') :
    stopPos m1 T1 T2 T3 b ≤ stopPos m1 T1 T2 T3 b' := by
  unfold stopPos
  split_ifs <;> omega

theorem stopPos_origin (m1 T1 T2 T3 b : Nat) :
    stopPos m1 T1 T2 T3 b ≤ m1 ∨ stopPos m1 T1 T2 T3 b = m1 + T1 ∨
      stopPos m1 T1 T2 T3 b = m1 + T1 + T2 ∨
      stopPos m1 T1 T2 T3 b = m1 + T1 + T2 + T3 := by
  unfold stopPos
  split_ifs <;> omega

set_option maxHeartbeats 4000000 in
/-- Emissions compose across a scan stop: what one pass over `[a, b)` emits
followed by what a pass over `[stop b, b')` emits is exactly a pass over
`[a, b')`. -/
theorem pktsBetween_compose (m1 T1 T2 T3 : Nat) (D1 D2 D3 : List Packet)
    (a b b' : Nat) (hT1 : 5 ≤ T1) (hT2 : 5 ≤ T2) (hT3 : 5 ≤ T3)
    (hab : a ≤ stopPos m1 T1 T2 T3 b) (hbb : b ≤ b') :
    pktsBetween m1 T1 T2 T3 D1 D2 D3 a b ++
      pktsBetween m1 T1 T2 T3 D1 D2 D3 (stopPos m1 T1 T2 T3 b) b' =
    pktsBetween m1 T1 T2 T3 D1 D2 D3 a b' := by
  have hstople := stopPos_le m1 T1 T2 T3 b
  have hf1 : stopPos m1 T1 T2 T3 b ≤ m1 ↔ b < m1 + T1 := by
    unfold stopPos; split_ifs <;> omega
  have hf2 : stopPos m1 T1 T2 T3 b ≤ m1 + T1 ↔ b < m1 + T1 + T2 := by
    unfold stopPos; split_ifs <;> omega
  have hf3 : stopPos m1 T1 T2 T3 b ≤ m1 + T1 + T2 ↔ b < m1 + T1 + T2 + T3 := by
    unfold stopPos; split_ifs <;> omega
  unfold pktsBetween
  split_ifs <;>
    first
      | (exfalso; omega)
      | simp only [List.nil_append, List.append_nil, List.append_assoc]

/-- Chunked feeding of the garbage–frame–frame–frame stream: starting from
any reachable buffer/position pair, as long as each tick's drain fits the
64-byte buffer, the whole run dispatches exactly the outputs of the frames
lying beyond the current position — independently of the chunking. -/
theorem resync_run (g p1 p2 p3 : List Nat) (c1 c2 c3 w1 w2 w3 : Nat)
    (h1 : p1.length ≤ 16) (h2 : p2.length ≤ 16) (h3 : p3.length ≤ 16)
    (hg : ∀ i, ¬(g.getD i 0 = 170 ∧ g.getD (i + 1) 0 = 85)) :
    ∀ (chunks : List (List Nat)) (b0 : Nat),
      b0 ≤ g.length + (5 + p1.length) + (5 + p2.length) + (5 + p3.length) →
      chunks.flatten =
        (g ++ (badFrame c1 p1 w1 ++
          (badFrame c2 p2 w2 ++ badFrame c3 p3 w3))).drop b0 →
      (∀ t, t < chunks.length →
        (b0 + ((chunks.take t).flatten).length) -
            stopPos g.length (5 + p1.length) (5 + p2.length) (5 + p3.length)
              (b0 + ((chunks.take t).flatten).length) +
          (chunks.getD t []).length ≤ 64) →
      runSerialTicks
          (seg (g ++ (badFrame c1 p1 w1 ++
              (badFrame c2 p2 w2 ++ badFrame c3 p3 w3)))
            (stopPos g.length (5 + p1.length) (5 + p2.length) (5 + p3.length)
              b0) b0) chunks =
        (pktsBetween g.length (5 + p1.length) (5 + p2.length) (5 + p3.length)
            (frameOut c1 p1 w1) (frameOut c2 p2 w2) (frameOut c3 p3 w3)
            (stopPos g.length (5 + p1.length) (5 + p2.length) (5 + p3.length)
              b0)
            (g.length + (5 + p1.length) + (5 + p2.length) + (5 + p3.length)),
          seg (g ++ (badFrame c1 p1 w1 ++
              (badFrame c2 p2 w2 ++ badFrame c3 p3 w3)))
            (stopPos g.length (5 + p1.length) (5 + p2.length) (5 + p3.length)
              (g.length + (5 + p1.length) + (5 + p2.length) + (5 + p3.length)))
            (g.length + (5 + p1.length) + (5 + p2.length) + (5 + p3.length)))
      := by
  set S := g ++ (badFrame c1 p1 w1 ++ (badFrame c2 p2 w2 ++ badFrame c3 p3 w3))
    with hS
  have hSlen : S.length =
      g.length + (5 + p1.length) + (5 + p2.length) + (5 + p3.length) := by
    rw [hS]; simp only [List.length_append, length_badFrame]; omega
  intro chunks
  induction chunks with
  | nil =>
    intro b0 hb0 hfl hfits
    have hb0e : b0 =
        g.length + (5 + p1.length) + (5 + p2.length) + (5 + p3.length) := by
      have h := congrArg List.length hfl
      simp only [List.flatten_nil, List.length_nil, List.length_drop] at h
      omega
    subst hb0e
    rw [runSerialTicks_nil]
    have hpkts : pktsBetween g.length (5 + p1.length) (5 + p2.length)
        (5 + p3.length) (frameOut c1 p1 w1) (frameOut c2 p2 w2)
        (frameOut c3 p3 w3)
        (stopPos g.length (5 + p1.length) (5 + p2.length) (5 + p3.length)
          (g.length + (5 + p1.length) + (5 + p2.length) + (5 + p3.length)))
        (g.length + (5 + p1.length) + (5 + p2.length) + (5 + p3.length)) =
        [] := by
      have hstop : stopPos g.length (5 + p1.length) (5 + p2.length)
          (5 + p3.length)
          (g.length + (5 + p1.length) + (5 + p2.length) + (5 + p3.length)) =
          g.length + (5 + p1.length) + (5 + p2.length) + (5 + p3.length) := by
        unfold stopPos; split_ifs <;> omega
      rw [hstop]
      unfold pktsBetween
      rw [if_neg (by omega), if_neg (by omega), if_neg (by omega)]
      rfl
    rw [hpkts]
  | cons c cs ih =>
    intro b0 hb0 hfl hfits
    have hflc : c ++ cs.flatten = S.drop b0 := by
      rw [← hfl]; simp [List.flatten_cons]
    have hlensum : c.length + cs.flatten.length = S.length - b0 := by
      have h := congrArg List.length hflc
      simp only [List.length_append, List.length_drop] at h
      omega
    have hb1 : b0 + c.length ≤ S.length := by omega
    have hb1' : b0 + c.length ≤
        g.length + (5 + p1.length) + (5 + p2.length) + (5 + p3.length) := by
      rw [← hSlen]; exact hb1
    have hc : c = seg S b0 (b0 + c.length) := by
      rw [seg_eq_take_drop, Nat.add_sub_cancel_left, ← hflc, List.take_left]
    have hcs : cs.flatten = S.drop (b0 + c.length) := by
      have hdd : S.drop (b0 + c.length) = (S.drop b0).drop c.length := by
        rw [List.drop_drop]
      rw [hdd, ← hflc, List.drop_left]
    have hfit0 : (b0 -
        stopPos g.length (5 + p1.length) (5 + p2.length) (5 + p3.length) b0)
        + c.length ≤ 64 := by
      have h := hfits 0 (by simp)
      simpa using h
    have hstople := stopPos_le g.length (5 + p1.length) (5 + p2.length)
      (5 + p3.length) b0
    have hdrain : drainSerial
        (seg S (stopPos g.length (5 + p1.length) (5 + p2.length)
          (5 + p3.length) b0) b0) c =
        seg S (stopPos g.length (5 + p1.length) (5 + p2.length)
          (5 + p3.length) b0) b0 ++ c := by
      apply drainSerial_append
      rw [length_seg _ _ _ hstople (by omega)]
      omega
    have hwin := resync_window g p1 p2 p3 c1 c2 c3 w1 w2 w3 h1 h2 h3 hg
      ((b0 + c.length) -
        stopPos g.length (5 + p1.length) (5 + p2.length) (5 + p3.length) b0)
      (stopPos g.length (5 + p1.length) (5 + p2.length) (5 + p3.length) b0)
      (b0 + c.length) (le_refl _) hb1'
      (stopPos_mono _ _ _ _ _ _ (by omega))
      (stopPos_origin _ _ _ _ _)
    rw [runSerialTicks_cons, hdrain, hc,
      seg_append_seg S _ b0 (b0 + c.length) hstople (by omega) hb1, hwin]
    have hrest := ih (b0 + c.length) hb1' hcs (by
      intro t ht
      have h := hfits (t + 1) (by simp; omega)
      simp only [List.take_succ_cons, List.flatten_cons, List.length_append,
        List.getD_cons_succ] at h
      have he : b0 + (c.length + ((cs.take t).flatten).length) =
          b0 + c.length + ((cs.take t).flatten).length := by omega
      rw [he] at h
      exact h)
    rw [hrest]
    rw [pktsBetween_compose g.length (5 + p1.length) (5 + p2.length)
      (5 + p3.length) _ _ _
      (stopPos g.length (5 + p1.length) (5 + p2.length) (5 + p3.length) b0)
      (b0 + c.length)
      (g.length + (5 + p1.length) + (5 + p2.length) + (5 + p3.length))
      (by omega) (by omega) (by omega)
      (stopPos_mono _ _ _ _ _ _ (by omega)) (by omega)]

/-! ## Facts about the dispatcher and the loop steps -/

/-- A Fault packet carries command id `0x11`. -/
def isFault (p : Packet) : Bool := p.cmd == 17

/-- Number of Fault packets in an outbound packet list. -/
def countFault (l : List Packet) : Nat := (l.filter isFault).length

theorem countFault_append (a b : List Packet) :
    countFault (a ++ b) = countFault a + countFault b := by
  unfold countFault
  rw [List.filter_append, List.length_append]

theorem processSerial_fst (s : Ctrl) (now : Nat) (chunk : List Nat) :
    (processSerial s now chunk).1 =
      dispatchAll { s with rx := (processBuf (drainSerial s.rx chunk)).2 } now
        (processBuf (drainSerial s.rx chunk)).1 := rfl

theorem processSerial_snd (s : Ctrl) (now : Nat) (chunk : List Nat) :
    (processSerial s now chunk).2 =
      (processBuf (drainSerial s.rx chunk)).1 := rfl

theorem dispatchAll_nil (s : Ctrl) (now : Nat) : dispatchAll s now [] = s := rfl

theorem dispatchAll_cons (s : Ctrl) (now : Nat) (x : Packet)
    (xs : List Packet) :
    dispatchAll s now (x :: xs) =
      dispatchAll (handlePacket s now x.cmd x.payload x.len) now xs := rfl

theorem handlePacket_last_cmd_time (s : Ctrl) (now c : Nat) (p : List Nat)
    (n : Nat) : (handlePacket s now c p n).last_cmd_time = now := by
  unfold handlePacket
  split_ifs <;> rfl

theorem dispatchAll_last_cmd_time (l : List Packet) :
    ∀ (s : Ctrl) (now : Nat), l ≠ [] →
      (dispatchAll s now l).last_cmd_time = now := by
  induction l with
  | nil => intro s now h; exact absurd rfl h
  | cons x xs ih =>
    intro s now _
    rw [dispatchAll_cons]
    by_cases hx : xs = []
    · subst hx
      rw [dispatchAll_nil]
      exact handlePacket_last_cmd_time _ _ _ _ _
    · exact ih _ now hx

theorem handlePacket_enabled (s : Ctrl) (now c : Nat) (p : List Nat) (n : Nat)
    (h : (handlePacket s now c p n).servo_enabled = true) :
    s.servo_enabled = true ∨ (c = 3 ∧ 1 ≤ n ∧ p.getD 0 0 ≠ 0) := by
  unfold handlePacket at h
  split_ifs at h
  all_goals
    first
      | exact Or.inl h
      | exact Or.inr ⟨‹c = 3›, ‹1 ≤ n›, ‹p.getD 0 0 ≠ 0›⟩
      | simp at h

theorem dispatchAll_enabled_source :
    ∀ (l : List Packet) (s : Ctrl) (now : Nat),
      (dispatchAll s now l).servo_enabled = true →
      s.servo_enabled = true ∨
        ∃ p ∈ l, p.cmd = 3 ∧ 1 ≤ p.len ∧ p.payload.getD 0 0 ≠ 0 := by
  intro l
  induction l with
  | nil => intro s now h; exact Or.inl h
  | cons x xs ih =>
    intro s now h
    rw [dispatchAll_cons] at h
    rcases ih (handlePacket s now x.cmd x.payload x.len) now h with h' | ⟨p, hp, hc⟩
    · rcases handlePacket_enabled _ _ _ _ _ h' with h'' | hc
      · exact Or.inl h''
      · exact Or.inr ⟨x, List.mem_cons_self _ _, hc⟩
    · exact Or.inr ⟨p, List.mem_cons_of_mem _ hp, hc⟩

theorem handlePacket_inv (s : Ctrl) (now c : Nat) (p : List Nat) (n : Nat)
    (hInv : s.servo_enabled = false → s.servoOut = ServoOut.relaxed) :
    (handlePacket s now c p n).servo_enabled = false →
      (handlePacket s now c p n).servoOut = ServoOut.relaxed := by
  unfold handlePacket
  split_ifs <;> intro h
  all_goals first | rfl | exact hInv h | simp at h

theorem dispatchAll_inv :
    ∀ (l : List Packet) (s : Ctrl) (now : Nat),
      (s.servo_enabled = false → s.servoOut = ServoOut.relaxed) →
      ((dispatchAll s now l).servo_enabled = false →
        (dispatchAll s now l).servoOut = ServoOut.relaxed) := by
  intro l
  induction l with
  | nil => intro s now hInv; exact hInv
  | cons x xs ih =>
    intro s now hInv
    rw [dispatchAll_cons]
    exact ih _ now (handlePacket_inv _ _ _ _ _ hInv)

theorem elapsed32_self (t : Nat) : elapsed32 t t = 0 := by
  unfold elapsed32
  omega

theorem telemetryStep_state (s : Ctrl) (now : Nat) :
    (telemetryStep s now).1.servo_enabled = s.servo_enabled ∧
    (telemetryStep s now).1.servoOut = s.servoOut ∧
    (telemetryStep s now).1.fault_code = s.fault_code := by
  unfold telemetryStep
  split_ifs <;> exact ⟨rfl, rfl, rfl⟩

theorem heartbeatStep_state (s : Ctrl) (now : Nat) :
    (heartbeatStep s now).1.servo_enabled = s.servo_enabled ∧
    (heartbeatStep s now).1.servoOut = s.servoOut ∧
    (heartbeatStep s now).1.fault_code = s.fault_code := by
  unfold heartbeatStep
  split_ifs <;> exact ⟨rfl, rfl, rfl⟩

theorem loopRateStep_state (s : Ctrl) (now : Nat) :
    (loopRateStep s now).servo_enabled = s.servo_enabled ∧
    (loopRateStep s now).servoOut = s.servoOut ∧
    (loopRateStep s now).fault_code = s.fault_code := by
  unfold loopRateStep
  split_ifs <;> exact ⟨rfl, rfl, rfl⟩

theorem driveStep_enabled (s : Ctrl) :
    (driveStep s).1.servo_enabled = s.servo_enabled := by
  unfold driveStep
  split_ifs <;> rfl

theorem driveStep_fault (s : Ctrl) :
    (driveStep s).1.fault_code = s.fault_code := by
  unfold driveStep
  split_ifs <;> rfl

theorem driveStep_disabled (s : Ctrl) (h : s.servo_enabled = false) :
    driveStep s = (s, []) := by
  unfold driveStep
  rw [if_neg (by rw [h]; exact Bool.false_ne_true)]

theorem countFault_telemetryStep (s : Ctrl) (now : Nat) :
    countFault (telemetryStep s now).2 = 0 := by
  unfold telemetryStep
  split_ifs <;> rfl

theorem countFault_heartbeatStep (s : Ctrl) (now : Nat) :
    countFault (heartbeatStep s now).2 = 0 := by
  unfold heartbeatStep
  split_ifs <;> rfl

theorem tick_state (s : Ctrl) (now adc : Nat) (chunk : List Nat) :
    (tick s now adc chunk).state = tickState s now adc chunk := by
  simp only [tick]

theorem tick_dispatched (s : Ctrl) (now adc : Nat) (chunk : List Nat) :
    (tick s now adc chunk).dispatched = (processSerial s now chunk).2 := by
  simp only [tick]

theorem tick_sent (s : Ctrl) (now adc : Nat) (chunk : List Nat) :
    (tick s now adc chunk).sent = tickSent s now adc chunk := by
  simp only [tick]

theorem tick_pulses (s : Ctrl) (now adc : Nat) (chunk : List Nat) :
    (tick s now adc chunk).pulseWrites =
      (driveStep (preDriveState s now adc chunk)).2 := by
  simp only [tick]

/-! ## Claim theorems -/

/-- C9: dispatching SetGain with any payload value above 100 stores
`gain = 100` (`min(payload[0], 100)`), and with `gain = 0` the computed pulse
width `positionToUs` equals the integer map of a zero deflection from
-32768..32767 onto 500..2500 µs — the midpoint 1500 — for every commanded
position value. -/
theorem setGain_clamps_and_zero_gain_centers :
    (∀ (s : Ctrl) (now v : Nat), 100 < v →
      (handlePacket s now 2 [v] 1).gain = 100) ∧
    (∀ pos : Int,
      positionToUs 0 pos = arduinoMap 0 (-32768) 32767 500 2500) ∧
    arduinoMap 0 (-32768) 32767 500 2500 = 1500 := by
  refine ⟨?_, ?_, by decide⟩
  · intro s now v hv
    unfold handlePacket
    rw [if_neg (by decide : ¬(2 : Nat) = 1), if_pos rfl,
      if_pos (le_refl 1)]
    show min ([v].getD 0 0) 100 = 100
    rw [List.getD_cons_zero]
    omega
  · intro pos
    unfold positionToUs
    rw [show ((0 : Nat) : Int) = 0 from rfl, mul_zero]
    rfl

/-- Witness for C9's clamp part at gain payload 150. -/
theorem setGain_clamps_witness :
    100 < 150 ∧ (handlePacket (initState 0) 5 2 [150] 1).gain = 100 :=
  ⟨by decide, setGain_clamps_and_zero_gain_centers.1 (initState 0) 5 150
    (by decide)⟩

/-- C10: a checksum-valid frame with a recognized command id but a payload
shorter than that command requires only resets the last-activity timestamp
and changes nothing else; and every dispatched frame — recognized or not —
resets the last-activity timestamp. -/
theorem short_payload_is_noop :
    (∀ (s : Ctrl) (now c : Nat) (p : List Nat) (n : Nat),
      ((c = 1 ∧ n < 2) ∨ (c = 2 ∧ n < 1) ∨ (c = 3 ∧ n < 1)) →
      handlePacket s now c p n = { s with last_cmd_time := now }) ∧
    (∀ (s : Ctrl) (now c : Nat) (p : List Nat) (n : Nat),
      (handlePacket s now c p n).last_cmd_time = now) := by
  constructor
  · intro s now c p n h
    unfold handlePacket
    rcases h with ⟨rfl, hn⟩ | ⟨rfl, hn⟩ | ⟨rfl, hn⟩
    · rw [if_pos rfl, if_neg (by omega)]
    · rw [if_neg (by decide : ¬(2 : Nat) = 1), if_pos rfl, if_neg (by omega)]
    · rw [if_neg (by decide : ¬(3 : Nat) = 1),
        if_neg (by decide : ¬(3 : Nat) = 2), if_pos rfl, if_neg (by omega)]
  · exact handlePacket_last_cmd_time

/-- Witness for C10 at a SetSteering frame with a 1-byte payload. -/
theorem short_payload_is_noop_witness :
    ((1 : Nat) = 1 ∧ (1 : Nat) < 2) ∧
    handlePacket (initState 3) 9 1 [5] 1 =
      { initState 3 with last_cmd_time := 9 } :=
  ⟨⟨rfl, by decide⟩,
    short_payload_is_noop.1 (initState 3) 9 1 [5] 1 (Or.inl ⟨rfl, by decide⟩)⟩

/-- C3: encoding a packet and feeding exactly those bytes to the decoder from
an empty receive buffer dispatches exactly one packet whose command id,
length and payload equal the encoder's inputs. -/
theorem encode_decode_roundtrip (s : Ctrl) (now : Nat) (cmd : Nat)
    (payload : List Nat) (hrx : s.rx = []) (hcmd : cmd < 256)
    (hbytes : ∀ x ∈ payload, x < 256) (hlen : payload.length ≤ 16) :
    (processSerial s now (sendPacket cmd payload)).2 =
      [⟨cmd, payload.length, payload⟩] := by
  rw [processSerial_snd, hrx,
    drainSerial_append (sendPacket cmd payload) []
      (by simp [sendPacket]; omega),
    List.nil_append, ← List.append_nil (sendPacket cmd payload),
    processBuf_sendPacket cmd payload [] hlen,
    processBuf_small [] (by decide)]

/-- Witness for C3 at a SetEnable(1) packet. -/
theorem encode_decode_roundtrip_witness :
    (initState 0).rx = [] ∧ (3 : Nat) < 256 ∧ (∀ x ∈ [1], x < 256) ∧
    ([1] : List Nat).length ≤ 16 ∧
    (processSerial (initState 0) 5 (sendPacket 3 [1])).2 = [⟨3, 1, [1]⟩] :=
  ⟨rfl, by decide, by decide, by decide,
    encode_decode_roundtrip (initState 0) 5 3 [1] rfl (by decide) (by decide)
      (by decide)⟩

/-- Every packet the scan loop emits has its length field equal to its
payload size, by construction of the payload handed over. -/
theorem parseLoop_len :
    ∀ (fuel : Nat) (buf : List Nat) (p : Packet),
      p ∈ (parseLoop fuel buf).1 → p.len = p.payload.length := by
  intro fuel
  induction fuel with
  | zero =>
    intro buf p hp
    simp [parseLoop] at hp
  | succ n ih =>
    intro buf p hp
    rw [parseLoop_succ] at hp
    split_ifs at hp
    · simp at hp
    · simp at hp
    · simp at hp
    · simp only [List.mem_cons] at hp
      rcases hp with rfl | hp'
      · simp
      · exact ih _ _ hp'
    · exact ih _ _ hp
    · exact ih _ _ hp

set_option maxRecDepth 10000 in
/-- C4 (amended): every packet the decoder emits satisfies
`len = payload.size`, but no 16-byte bound is enforced: a checksum-valid
frame with length byte 17 (byte layout
`AA 55 F0 11 <17 zero bytes> 5C`, whose trailing byte is the correct CRC) is
dispatched. -/
theorem dispatched_length_matches_payload :
    (∀ (buf : List Nat) (p : Packet), p ∈ (processBuf buf).1 →
      p.len = p.payload.length) ∧
    (processBuf ([170, 85, 240, 17] ++ (List.replicate 17 0 ++ [92]))).1 =
      [⟨240, 17, List.replicate 17 0⟩] := by
  constructor
  · intro buf p hp
    exact parseLoop_len _ _ _ hp
  · decide

/-- Witness for the amended C4 at a SetEnable(1) frame. -/
theorem dispatched_length_matches_payload_witness :
    (⟨3, 1, [1]⟩ : Packet) ∈ (processBuf (sendPacket 3 [1])).1 ∧
    (⟨3, 1, [1]⟩ : Packet).len = (⟨3, 1, [1]⟩ : Packet).payload.length :=
  ⟨by decide, dispatched_length_matches_payload.1 (sendPacket 3 [1]) _
    (by decide)⟩

set_option maxRecDepth 10000 in
/-- Counterexample to C4 as stated: the receive buffer reached by draining
the 22 bytes `AA 55 F0 11 00×17 5C` into an empty buffer dispatches a packet
whose length byte is 17, exceeding the documented 16-byte payload bound —
`processSerial` never checks the length byte against `PROTO_MAX_PAYLOAD`. -/
theorem dispatched_length_over_16_cex :
    (processBuf (drainSerial []
        ([170, 85, 240, 17] ++ (List.replicate 17 0 ++ [92])))).1 =
      [⟨240, 17, List.replicate 17 0⟩] ∧ ¬((17 : Nat) ≤ 16) :=
  ⟨by decide, by decide⟩

/-- C5 refutation: on the reachable buffer obtained by draining
`AA 55 00 FB 00` into an empty buffer, the `Option`-indexed scan hits an
out-of-range read.  The length byte `0xFB = 251` makes
`total = (5 + 251) mod 256 = 0` pass the bounds check, after which the C code
reads the CRC input and the checksum byte at offsets far beyond the write
cursor (and beyond the 64-byte array), and `search += total` never advances. -/
theorem checked_scan_hits_oob :
    processChecked (drainSerial [] [170, 85, 0, 251, 0]) = none := by
  decide

/-- C8: draining one byte more than the 64-byte capacity resets the buffer
(the cursor restarts from zero, abandoning the 64 buffered bytes), and a
complete checksum-valid frame drained after the reset is still decoded and
dispatched. -/
theorem overflow_reset_then_decode (g : List Nat) (x c : Nat) (p : List Nat)
    (hg64 : g.length = 64)
    (hgf : ∀ i, i < g.length →
      ¬(g.getD i 0 = 170 ∧ g.getD (i + 1) 0 = 85))
    (hp : p.length ≤ 16) :
    drainSerial [] (g ++ [x]) = [x] ∧
    (processBuf (drainSerial [] (g ++ ([x] ++ sendPacket c p)))).1 =
      [⟨c, p.length, p⟩] := by
  have hchunks : ∀ (b c1 c2 : List Nat),
      drainSerial b (c1 ++ c2) = drainSerial (drainSerial b c1) c2 := by
    intro b c1 c2
    unfold drainSerial
    rw [List.foldl_append]
  have h1 : drainSerial [] g = g := by
    have h := drainSerial_append g [] (by rw [hg64]; decide)
    rwa [List.nil_append] at h
  have h2 : drainSerial [] (g ++ [x]) = [x] := by
    rw [hchunks, h1]
    show drainSerial g [x] = [x]
    unfold drainSerial
    rw [List.foldl_cons, if_pos (by omega), List.foldl_nil]
  refine ⟨h2, ?_⟩
  have h3 : drainSerial [] (g ++ ([x] ++ sendPacket c p)) =
      x :: sendPacket c p := by
    rw [show g ++ ([x] ++ sendPacket c p) = (g ++ [x]) ++ sendPacket c p by
        rw [List.append_assoc],
      hchunks, h2,
      drainSerial_append (sendPacket c p) [x] (by simp [sendPacket]; omega)]
    rfl
  rw [h3]
  have h4 : ¬((x :: sendPacket c p).getD 0 0 = 170 ∧
      (x :: sendPacket c p).getD 1 0 = 85) := by
    rintro ⟨-, hh⟩
    rw [List.getD_cons_succ,
      show (sendPacket c p).getD 0 0 = 170 from rfl] at hh
    exact absurd hh (by decide)
  rw [processBuf_skip _
      (by simp only [sendPacket, List.length_cons, List.length_append,
        List.length_nil]; omega) h4,
    show (x :: sendPacket c p).drop 1 = sendPacket c p from rfl,
    ← List.append_nil (sendPacket c p), processBuf_sendPacket c p [] hp,
    processBuf_small [] (by decide)]

/-- Witness for C8: 64 zero bytes, one further byte forcing the reset, then a
SetEnable(1) frame. -/
theorem overflow_reset_then_decode_witness :
    (List.replicate 64 0).length = 64 ∧
    (drainSerial [] (List.replicate 64 0 ++ [7]) = [7] ∧
      (processBuf (drainSerial []
        (List.replicate 64 0 ++ ([7] ++ sendPacket 3 [1])))).1 =
        [⟨3, 1, [1]⟩]) :=
  ⟨by decide, overflow_reset_then_decode (List.replicate 64 0) 7 3 [1]
    (by decide) (by decide) (by decide)⟩

/-- C6: `servo_enabled` goes from false to true only through a dispatched
(hence checksum-valid) SetEnable command with a nonzero payload byte; no
other part of a loop iteration ever enables the servo. -/
theorem enable_requires_command (s : Ctrl) (now adc : Nat) (chunk : List Nat)
    (hdis : s.servo_enabled = false)
    (hen : (tick s now adc chunk).state.servo_enabled = true) :
    ∃ p ∈ (tick s now adc chunk).dispatched,
      p.cmd = 3 ∧ 1 ≤ p.len ∧ p.payload.getD 0 0 ≠ 0 := by
  rw [tick_state] at hen
  unfold tickState at hen
  rw [(loopRateStep_state _ _).1, (heartbeatStep_state _ _).1,
    (telemetryStep_state _ _).1, driveStep_enabled] at hen
  have hen2 : (timeoutStep (processSerial s now chunk).1 now).1.servo_enabled
      = true := hen
  have hto : (processSerial s now chunk).1.servo_enabled = true := by
    revert hen2
    unfold timeoutStep
    split_ifs with h
    · intro hh
      exact absurd hh (by decide)
    · exact id
  rw [processSerial_fst] at hto
  rcases dispatchAll_enabled_source _ _ _ hto with h | ⟨p, hp, hc⟩
  · have hs : s.servo_enabled = true := h
    rw [hdis] at hs
    exact absurd hs (by decide)
  · refine ⟨p, ?_, hc⟩
    rw [tick_dispatched, processSerial_snd]
    exact hp

/-- Witness for C6: enabling from the initial state via a SetEnable(1)
frame. -/
theorem enable_requires_command_witness :
    (initState 0).servo_enabled = false ∧
    (tick (initState 0) 5 0 (sendPacket 3 [1])).state.servo_enabled = true ∧
    ∃ p ∈ (tick (initState 0) 5 0 (sendPacket 3 [1])).dispatched,
      p.cmd = 3 ∧ 1 ≤ p.len ∧ p.payload.getD 0 0 ≠ 0 :=
  ⟨rfl, by decide,
    enable_requires_command (initState 0) 5 0 (sendPacket 3 [1]) rfl
      (by decide)⟩

/-- C7: in every reachable state, a disabled servo means the actuator
boundary is relaxed (no pulse output); and a pulse width is written during an
iteration only when the servo is enabled (equivalently: a tick that wrote a
pulse ends enabled — nothing after the drive section can disable it). -/
theorem disabled_implies_relaxed :
    (∀ s : Ctrl, Reachable s → s.servo_enabled = false →
      s.servoOut = ServoOut.relaxed) ∧
    (∀ (s : Ctrl) (now adc : Nat) (chunk : List Nat) (u : Nat),
      u ∈ (tick s now adc chunk).pulseWrites →
      (tick s now adc chunk).state.servo_enabled = true) := by
  have hstep : ∀ (s : Ctrl) (now adc : Nat) (chunk : List Nat),
      (s.servo_enabled = false → s.servoOut = ServoOut.relaxed) →
      ((tick s now adc chunk).state.servo_enabled = false →
        (tick s now adc chunk).state.servoOut = ServoOut.relaxed) := by
    intro s now adc chunk hInv
    rw [tick_state]
    unfold tickState
    intro h
    rw [(loopRateStep_state _ _).1, (heartbeatStep_state _ _).1,
      (telemetryStep_state _ _).1, driveStep_enabled] at h
    rw [(loopRateStep_state _ _).2.1, (heartbeatStep_state _ _).2.1,
      (telemetryStep_state _ _).2.1, driveStep_disabled _ h]
    show (preDriveState s now adc chunk).servoOut = ServoOut.relaxed
    have h' : (timeoutStep (processSerial s now chunk).1 now).1.servo_enabled
        = false := h
    show (timeoutStep (processSerial s now chunk).1 now).1.servoOut =
      ServoOut.relaxed
    revert h'
    unfold timeoutStep
    split_ifs with hc
    · intro _
      rfl
    · intro h'
      rw [processSerial_fst] at h' ⊢
      exact dispatchAll_inv _ _ now (fun hh => hInv hh) h'
  constructor
  · intro s hr
    induction hr with
    | init t0 => intro _; rfl
    | step now adc chunk hr ih => exact hstep _ now adc chunk ih
  · intro s now adc chunk u hu
    rw [tick_pulses] at hu
    by_cases he : (preDriveState s now adc chunk).servo_enabled = true
    · rw [tick_state]
      unfold tickState
      rw [(loopRateStep_state _ _).1, (heartbeatStep_state _ _).1,
        (telemetryStep_state _ _).1, driveStep_enabled]
      exact he
    · have hf : (preDriveState s now adc chunk).servo_enabled = false := by
        cases hb : (preDriveState s now adc chunk).servo_enabled
        · rfl
        · exact absurd hb he
      rw [driveStep_disabled _ hf] at hu
      simp at hu

/-- Witness for C7's invariant part at a reachable disabled state, and for
the pulse part at an enabled tick. -/
theorem disabled_implies_relaxed_witness :
    Reachable (initState 4) ∧ (initState 4).servo_enabled = false ∧
    (initState 4).servoOut = ServoOut.relaxed ∧
    (1500 ∈ (tick { initState 0 with servo_enabled := true } 5 0
        []).pulseWrites ∧
      (tick { initState 0 with servo_enabled := true } 5 0
        []).state.servo_enabled = true) :=
  ⟨Reachable.init 4, rfl,
    disabled_implies_relaxed.1 (initState 4) (Reachable.init 4) rfl,
    by decide,
    disabled_implies_relaxed.2 _ 5 0 [] 1500 (by decide)⟩

/-- C1: with the servo enabled, no pending dispatchable frame and more than
the 1000 ms timeout elapsed since the last valid command, the next tick
disables the servo, relaxes the actuator, sets
`fault_code = FAULT_SERIAL_TIMEOUT = 1` and emits exactly one Fault packet;
and any tick that starts disabled emits no Fault packet at all (so nothing
further is emitted while the controller stays disabled). -/
theorem timeout_disables_and_faults_once :
    (∀ (s : Ctrl) (now adc : Nat),
      s.servo_enabled = true →
      (processBuf s.rx).1 = [] →
      1000 < elapsed32 now s.last_cmd_time →
      ((tick s now adc []).state.servo_enabled = false ∧
        (tick s now adc []).state.servoOut = ServoOut.relaxed ∧
        (tick s now adc []).state.fault_code = 1 ∧
        countFault (tick s now adc []).sent = 1)) ∧
    (∀ (s : Ctrl) (now adc : Nat) (chunk : List Nat),
      s.servo_enabled = false →
      countFault (tick s now adc chunk).sent = 0) := by
  constructor
  · intro s now adc hen hdisp htime
    have hps : (processSerial s now []).1 =
        { s with rx := (processBuf s.rx).2 } := by
      rw [processSerial_fst,
        show drainSerial s.rx [] = s.rx from rfl, hdisp, dispatchAll_nil]
    have hto : timeoutStep (processSerial s now []).1 now = ({ (processSerial s now []).1 with servo_enabled := false, servoOut := ServoOut.relaxed, fault_code := 1 }, [⟨17, 1, [1]⟩]) := by
      unfold timeoutStep
      rw [if_pos]
      constructor
      · rw [hps]
        exact hen
      · rw [hps]
        exact htime
    have hpre : (preDriveState s now adc []).servo_enabled = false := by
      unfold preDriveState
      rw [hto]
    refine ⟨?_, ?_, ?_, ?_⟩
    · rw [tick_state]
      unfold tickState
      rw [(loopRateStep_state _ _).1, (heartbeatStep_state _ _).1,
        (telemetryStep_state _ _).1, driveStep_enabled]
      exact hpre
    · rw [tick_state]
      unfold tickState
      rw [(loopRateStep_state _ _).2.1, (heartbeatStep_state _ _).2.1,
        (telemetryStep_state _ _).2.1, driveStep_disabled _ hpre]
      show (preDriveState s now adc []).servoOut = ServoOut.relaxed
      unfold preDriveState
      rw [hto]
    · rw [tick_state]
      unfold tickState
      rw [(loopRateStep_state _ _).2.2, (heartbeatStep_state _ _).2.2,
        (telemetryStep_state _ _).2.2, driveStep_fault]
      show (preDriveState s now adc []).fault_code = 1
      unfold preDriveState
      rw [hto]
    · rw [tick_sent]
      unfold tickSent
      rw [countFault_append, countFault_append, countFault_telemetryStep,
        countFault_heartbeatStep, hto]
      rfl
  · intro s now adc chunk hdis
    have hto2 : (timeoutStep (processSerial s now chunk).1 now).2 = [] := by
      by_cases he : (processSerial s now chunk).1.servo_enabled = true
      · have hne : (processBuf (drainSerial s.rx chunk)).1 ≠ [] := by
          intro h0
          have h1 : (processSerial s now chunk).1 =
              { s with rx := (processBuf (drainSerial s.rx chunk)).2 } := by
            rw [processSerial_fst, h0, dispatchAll_nil]
          rw [h1] at he
          have hs : s.servo_enabled = true := he
          rw [hdis] at hs
          exact absurd hs (by decide)
        have hlast : (processSerial s now chunk).1.last_cmd_time = now := by
          rw [processSerial_fst]
          exact dispatchAll_last_cmd_time _ _ now hne
        have hcond : ¬((processSerial s now chunk).1.servo_enabled = true ∧
            1000 < elapsed32 now
              (processSerial s now chunk).1.last_cmd_time) := by
          rintro ⟨-, hlt⟩
          rw [hlast, elapsed32_self] at hlt
          omega
        unfold timeoutStep
        rw [if_neg hcond]
      · unfold timeoutStep
        rw [if_neg (fun hc => he hc.1)]
    rw [tick_sent]
    unfold tickSent
    rw [countFault_append, countFault_append, countFault_telemetryStep,
      countFault_heartbeatStep, hto2]
    rfl

/-- Witness for C1: an enabled state with an empty buffer whose last command
was at time 0, ticked at time 1001; and the same state disabled. -/
theorem timeout_disables_and_faults_once_witness :
    ({ initState 0 with servo_enabled := true } : Ctrl).servo_enabled =
        true ∧
    (processBuf ({ initState 0 with servo_enabled := true } : Ctrl).rx).1 =
        [] ∧
    1000 < elapsed32 1001
        ({ initState 0 with servo_enabled := true } : Ctrl).last_cmd_time ∧
    ((tick { initState 0 with servo_enabled := true } 1001 0
        []).state.servo_enabled = false ∧
      (tick { initState 0 with servo_enabled := true } 1001 0
        []).state.servoOut = ServoOut.relaxed ∧
      (tick { initState 0 with servo_enabled := true } 1001 0
        []).state.fault_code = 1 ∧
      countFault (tick { initState 0 with servo_enabled := true } 1001 0
        []).sent = 1) ∧
    countFault (tick (initState 0) 70 0 []).sent = 0 :=
  ⟨rfl, by decide, by decide,
    timeout_disables_and_faults_once.1 _ 1001 0 rfl (by decide) (by decide),
    timeout_disables_and_faults_once.2 (initState 0) 70 0 [] rfl⟩

/-- C2: for a stream of header-free garbage, then a checksum-valid frame,
then a frame whose trailing checksum byte is wrong, then another
checksum-valid frame, the decoder — run over any per-tick chunking of the
stream whose pending-bytes-plus-chunk load fits the 64-byte receive
buffer — dispatches exactly the two checksum-valid commands, in stream
order, and ends with an empty buffer.  ("Header-free" — no two consecutive
garbage bytes forming the 0xAA 0x55 signature — is the amendment: for
arbitrary garbage the property fails, see the counterexample.) -/
theorem resync_exact_dispatch (g p1 p2 p3 : List Nat) (c1 c2 c3 b2 : Nat)
    (chunks : List (List Nat))
    (hg : ∀ i, ¬(g.getD i 0 = 170 ∧ g.getD (i + 1) 0 = 85))
    (h1 : p1.length ≤ 16) (h2 : p2.length ≤ 16) (h3 : p3.length ≤ 16)
    (hb2 : b2 ≠ crc8 (c2 :: p2.length :: p2))
    (hfl : chunks.flatten =
      g ++ (sendPacket c1 p1 ++ (badFrame c2 p2 b2 ++ sendPacket c3 p3)))
    (hfits : ∀ t, t < chunks.length →
      ((chunks.take t).flatten).length -
          stopPos g.length (5 + p1.length) (5 + p2.length) (5 + p3.length)
            ((chunks.take t).flatten).length +
        (chunks.getD t []).length ≤ 64) :
    runSerialTicks [] chunks =
      ([⟨c1, p1.length, p1⟩, ⟨c3, p3.length, p3⟩], []) := by
  have hL : g.length + (5 + p1.length) + (5 + p2.length) + (5 + p3.length) =
      g.length + (5 + p1.length) + (5 + p2.length) + (5 + p3.length) := rfl
  have h := resync_run g p1 p2 p3 c1 c2 c3
    (crc8 (c1 :: p1.length :: p1)) b2 (crc8 (c3 :: p3.length :: p3))
    h1 h2 h3 hg chunks 0 (Nat.zero_le _)
    (by rw [List.drop_zero]; exact hfl)
    (fun t ht => by simp only [Nat.zero_add]; exact hfits t ht)
  have hstop0 : stopPos g.length (5 + p1.length) (5 + p2.length)
      (5 + p3.length) 0 = 0 := by
    unfold stopPos; split_ifs <;> omega
  have hstopL : stopPos g.length (5 + p1.length) (5 + p2.length)
      (5 + p3.length)
      (g.length + (5 + p1.length) + (5 + p2.length) + (5 + p3.length)) =
      g.length + (5 + p1.length) + (5 + p2.length) + (5 + p3.length) := by
    unfold stopPos; split_ifs <;> omega
  rw [hstop0, hstopL, seg_self] at h
  rw [seg_self] at h
  have hpk : pktsBetween g.length (5 + p1.length) (5 + p2.length)
      (5 + p3.length) (frameOut c1 p1 (crc8 (c1 :: p1.length :: p1)))
      (frameOut c2 p2 b2) (frameOut c3 p3 (crc8 (c3 :: p3.length :: p3)))
      0 (g.length + (5 + p1.length) + (5 + p2.length) + (5 + p3.length)) =
      [⟨c1, p1.length, p1⟩, ⟨c3, p3.length, p3⟩] := by
    unfold pktsBetween frameOut
    have f1 : crc8 (c1 :: p1.length :: p1) = crc8 (c1 :: p1.length :: p1) :=
      rfl
    have f3 : crc8 (c3 :: p3.length :: p3) = crc8 (c3 :: p3.length :: p3) :=
      rfl
    have f2 : ¬crc8 (c2 :: p2.length :: p2) = b2 := fun hh => hb2 hh.symm
    have e1 : 0 ≤ g.length ∧ g.length + (5 + p1.length) ≤
        g.length + (5 + p1.length) + (5 + p2.length) + (5 + p3.length) :=
      ⟨Nat.zero_le _, by omega⟩
    have e2 : 0 ≤ g.length + (5 + p1.length) ∧
        g.length + (5 + p1.length) + (5 + p2.length) ≤
        g.length + (5 + p1.length) + (5 + p2.length) + (5 + p3.length) :=
      ⟨Nat.zero_le _, by omega⟩
    have e3 : 0 ≤ g.length + (5 + p1.length) + (5 + p2.length) ∧
        g.length + (5 + p1.length) + (5 + p2.length) + (5 + p3.length) ≤
        g.length + (5 + p1.length) + (5 + p2.length) + (5 + p3.length) :=
      ⟨Nat.zero_le _, by omega⟩
    rw [if_pos f1, if_pos f3, if_neg f2, if_pos e1, if_pos e2, if_pos e3]
    rfl
  rw [hpk] at h
  exact h

/-- Witness for C2: garbage `[0]`, SetEnable-style frame `F0` (heartbeat
command, empty payload), the same frame with checksum byte 99, then
SetSteering `02 [5]`, all in one chunk. -/
theorem resync_exact_dispatch_witness :
    (99 : Nat) ≠ crc8 (240 :: ([] : List Nat).length :: []) ∧
    runSerialTicks []
        [[0] ++ (sendPacket 240 [] ++ (badFrame 240 [] 99 ++
          sendPacket 2 [5]))] =
      ([⟨240, ([] : List Nat).length, []⟩, ⟨2, [5].length, [5]⟩], []) :=
  ⟨by decide,
    resync_exact_dispatch [0] [] [] [5] 240 240 2 99
      [[0] ++ (sendPacket 240 [] ++ (badFrame 240 [] 99 ++ sendPacket 2 [5]))]
      (fun i h => by
        rcases i with _ | i
        · exact absurd h.1 (by decide)
        · rw [List.getD_eq_default _ _
            (by simp : ([0] : List Nat).length ≤ i + 1)] at h
          exact absurd h.1 (by decide))
      (by decide) (by decide) (by decide) (by decide) rfl
      (fun t ht => by
        have ht' : t < 1 := by simpa using ht
        have ht0 : t = 0 := by omega
        subst ht0
        decide)⟩

set_option maxRecDepth 10000 in
/-- Counterexample to C2 as stated for ARBITRARY garbage: when the garbage
bytes themselves contain the header signature `0xAA 0x55`, the scanner locks
onto the phantom header, misreads the following real header bytes as command
and length (`plen = 0x55`), decides the 90-byte phantom frame is incomplete,
and waits forever: nothing is dispatched even though the stream is garbage
followed by valid, corrupted, valid frames and fits the buffer in one
chunk. -/
theorem resync_exact_dispatch_cex :
    (99 : Nat) ≠ crc8 (240 :: ([] : List Nat).length :: []) ∧
    ([170, 85] ++ (sendPacket 240 [] ++ (badFrame 240 [] 99 ++
        sendPacket 2 [5]))).length ≤ 64 ∧
    (runSerialTicks []
        [[170, 85] ++ (sendPacket 240 [] ++ (badFrame 240 [] 99 ++
          sendPacket 2 [5]))]).1 ≠
      [⟨240, ([] : List Nat).length, []⟩, ⟨2, [5].length, [5]⟩] := by
  refine ⟨by decide, by decide, ?_⟩
  decide

end ServoFw
